import Mathlib

/-!
Verification of the underwater-threat-detection core of the `sih` repository.

The definitions below are a shallow embedding of the Python sources:
  * `backend/app/api/routes/detection.py` (`analyze_threat_patterns_sync`),
  * `backend/app/services/threat_detection_service.py`
    (`threat_classes`, `threat_severity`, `_map_class_to_threat`,
     `_detect_threats_sync`, `_calculate_threat_summary`),
  * `backend/app/services/enhancement_service.py`
    (`_enhance_red_channel`, `_simple_dehaze`, `_calculate_metrics_sync`,
     `_calculate_uiqm`).

Python floats are modelled as rationals (`ℚ`), Python dicts as
insertion-ordered association lists (`List (key × value)`), and raised
exceptions as `Except String`.  External library calls (cv2 resize,
skimage PSNR/SSIM, the cv2-based UIQM sub-metrics) are taken as explicit
function parameters: the repository's own control flow around them is
what is embedded and proved about.  The dehazer's arithmetic is carried
out in `NpVal`, rationals extended with numpy's non-finite float values
(`NaN`, `±inf`) and their IEEE propagation rules for the operations the
dehazer performs, because division by a zero atmospheric-light channel
really produces `NaN` in the program.
-/

namespace SIH

/-- Bounding box of a detection, as produced in `_detect_threats_sync`. -/
structure BBox where
  x1 : ℚ
  y1 : ℚ
  x2 : ℚ
  y2 : ℚ
  deriving DecidableEq, Repr

/-- One detection record, mirroring the dict built in
`_detect_threats_sync` and consumed by `analyze_threat_patterns_sync`. -/
structure Detection where
  threat_type : String
  confidence : ℚ
  severity : String
  bbox : BBox
  area : ℚ
  deriving DecidableEq, Repr

/-- Python `d[k] = d.get(k, 0) + 1` on an insertion-ordered dict:
an existing key is incremented in place (its position is unchanged),
a fresh key is appended at the end with count 1. -/
def bump (k : String) : List (String × Nat) → List (String × Nat)
  | [] => [(k, 1)]
  | (k', n) :: rest => if k' = k then (k', n + 1) :: rest else (k', n) :: bump k rest

/-- Python `max(items, key=lambda x: x[1])` keeps the current best on ties,
so the first element attaining the maximum count wins. -/
def pyMaxAux (best : String × Nat) : List (String × Nat) → String × Nat
  | [] => best
  | a :: rest => pyMaxAux (if best.2 < a.2 then a else best) rest

/-- Python `max` over the items of a counts dict; `none` on the empty dict
(where CPython would raise `ValueError`). -/
def pyMax : List (String × Nat) → Option (String × Nat)
  | [] => none
  | x :: xs => some (pyMaxAux x xs)

/-- Python `round(x, 2)` modelled on rationals.  (CPython rounds float
ties to even; the tie case is irrelevant to every claim below.) -/
def round2 (q : ℚ) : ℚ := ((⌊q * 100 + 1/2⌋ : ℤ) : ℚ) / 100

/-- Dict indexing `d[k]` for a key that is guaranteed present, and
`d.get(k, 0)` otherwise. -/
def lookupD (l : List (String × Nat)) (k : String) : Nat := (l.lookup k).getD 0

/-- Return value of `analyze_threat_patterns_sync`.  The Python function
returns one of two dict shapes; a key absent from the returned dict is
`none` here. -/
structure PatternReport where
  pattern_summary : Option String
  most_common_threat : Option (String × Nat)
  threat_distribution : Option (List (String × Nat))
  severity_distribution : Option (List (String × Nat))
  average_confidence : Option ℚ
  total_threats : Option Nat
  risk_level : Option String
  deriving DecidableEq, Repr

/-- Embedding of `analyze_threat_patterns_sync` from
`backend/app/api/routes/detection.py` (lines 253-285). -/
def analyze_threat_patterns_sync (detections : List Detection) : PatternReport :=
  if detections = [] then
    { pattern_summary := some "No threats detected"
      most_common_threat := none
      threat_distribution := none
      severity_distribution := none
      average_confidence := none
      total_threats := none
      risk_level := none }
  else
    let threat_counts := detections.foldl (fun acc d => bump d.threat_type acc) []
    let severity_counts := detections.foldl (fun acc d => bump d.severity acc)
      [("critical", 0), ("high", 0), ("medium", 0)]
    let avg := (detections.map (fun d => d.confidence)).sum / (detections.length : ℚ)
    { pattern_summary := none
      most_common_threat := pyMax threat_counts
      threat_distribution := some threat_counts
      severity_distribution := some severity_counts
      average_confidence := some (round2 avg)
      total_threats := some detections.length
      risk_level := some (if 0 < lookupD severity_counts "critical" then "high"
        else if 0 < lookupD severity_counts "high" then "medium" else "low") }

/-- The fixed `threat_severity` table of `ThreatDetectionService`. -/
def threat_severity : List (String × String) :=
  [("submarine", "critical"), ("mine", "critical"), ("diver", "high"),
   ("drone", "high"), ("suspicious_object", "medium")]

/-- Severity derivation `self.threat_severity.get(threat_type, "low")`
(`_detect_threats_sync`, line 121). -/
def severity_of (t : String) : String := (threat_severity.lookup t).getD "low"

/-- The `threat_classes` table of `ThreatDetectionService.__init__`. -/
def threat_classes : List (Int × String) :=
  [(0, "submarine"), (1, "mine"), (2, "diver"), (3, "drone"), (4, "suspicious_object")]

/-- The `common_to_threat` table inside `_map_class_to_threat`. -/
def common_to_threat : List (Int × String) :=
  [(0, "suspicious_object"), (1, "suspicious_object"), (2, "suspicious_object"),
   (3, "suspicious_object"), (4, "suspicious_object"), (5, "suspicious_object"),
   (6, "suspicious_object"), (7, "suspicious_object"), (8, "suspicious_object")]

/-- Embedding of `_map_class_to_threat`:
`common_to_threat.get(class_id, "suspicious_object")`. -/
def map_class_to_threat (class_id : Int) : String :=
  (common_to_threat.lookup class_id).getD "suspicious_object"

/-- Raw detector output consumed by `_detect_threats_sync`:
class id, confidence and box extracted from a YOLO result. -/
structure RawBox where
  class_id : Int
  confidence : ℚ
  bbox : BBox
  deriving DecidableEq, Repr

/-- The detection dict built for one raw box in `_detect_threats_sync`
(lines 114-136): threat type from `_map_class_to_threat`, severity from
the `threat_severity` table, area from the box coordinates. -/
def build_detection (r : RawBox) : Detection :=
  let t := map_class_to_threat r.class_id
  { threat_type := t
    confidence := r.confidence
    severity := severity_of t
    bbox := r.bbox
    area := (r.bbox.x2 - r.bbox.x1) * (r.bbox.y2 - r.bbox.y1) }

/-- Lookup skips a cons whose key differs. -/
theorem lookup_cons_ne {β : Type} {k k1 : String} (v : β) (l : List (String × β))
    (h : k ≠ k1) : List.lookup k ((k1, v) :: l) = List.lookup k l := by
  rw [List.lookup_cons, beq_eq_false_iff_ne.mpr h]

/-- Incrementing key `k` leaves every other key's count untouched. -/
theorem lookup_bump_ne (k k2 : String) (hne : k2 ≠ k) : ∀ l : List (String × Nat),
    (bump k l).lookup k2 = l.lookup k2 := by
  intro l
  induction l with
  | nil => simp [bump, lookup_cons_ne _ _ hne]
  | cons a rest ih =>
    obtain ⟨k1, n⟩ := a
    by_cases h : k1 = k
    · subst h
      rw [show bump k1 ((k1, n) :: rest) = (k1, n + 1) :: rest by simp [bump]]
      by_cases h2 : k2 = k1
      · exact absurd h2 hne
      · rw [lookup_cons_ne _ _ h2, lookup_cons_ne _ _ h2]
    · rw [show bump k ((k1, n) :: rest) = (k1, n) :: bump k rest by simp [bump, h]]
      by_cases h2 : k2 = k1
      · subst h2
        rw [List.lookup_cons_self, List.lookup_cons_self]
      · rw [lookup_cons_ne _ _ h2, lookup_cons_ne _ _ h2, ih]

/-- Incrementing key `k` makes its count the old default-0 count plus one. -/
theorem lookup_bump_self (k : String) : ∀ l : List (String × Nat),
    (bump k l).lookup k = some ((l.lookup k).getD 0 + 1) := by
  intro l
  induction l with
  | nil => simp [bump]
  | cons a rest ih =>
    obtain ⟨k1, n⟩ := a
    by_cases h : k1 = k
    · subst h
      rw [show bump k1 ((k1, n) :: rest) = (k1, n + 1) :: rest by simp [bump]]
      rw [List.lookup_cons_self, List.lookup_cons_self]
      rfl
    · rw [show bump k ((k1, n) :: rest) = (k1, n) :: bump k rest by simp [bump, h]]
      rw [lookup_cons_ne _ _ (Ne.symm h), lookup_cons_ne _ _ (Ne.symm h), ih]

/-- Folding `bump` over a detection list tallies exactly the number of
detections whose `f`-key equals `k`, on top of the initial count. -/
theorem lookup_tally (f : Detection → String) (k : String) :
    ∀ (dets : List Detection) (init : List (String × Nat)) (n : Nat),
      init.lookup k = some n →
      (dets.foldl (fun acc d => bump (f d) acc) init).lookup k
        = some (n + (dets.filter (fun d => f d == k)).length) := by
  intro dets
  induction dets with
  | nil => intro init n h; simpa using h
  | cons d rest ih =>
    intro init n h
    by_cases hd : f d = k
    · have h1 : (bump (f d) init).lookup k = some (n + 1) := by
        rw [hd, lookup_bump_self k init, h]
        rfl
      have h2 := ih (bump (f d) init) (n + 1) h1
      simp only [List.foldl_cons]
      rw [h2, List.filter_cons]
      simp [hd]
      omega
    · have h1 : (bump (f d) init).lookup k = some n := by
        rw [lookup_bump_ne (f d) k (Ne.symm hd) init, h]
      have h2 := ih (bump (f d) init) n h1
      simp only [List.foldl_cons]
      rw [h2, List.filter_cons]
      simp [hd]

/-- A `bump` always produces a non-empty dict. -/
theorem bump_ne_nil (k : String) (l : List (String × Nat)) : bump k l ≠ [] := by
  cases l with
  | nil => simp [bump]
  | cons a rest =>
    obtain ⟨k1, n⟩ := a
    by_cases h : k1 = k <;> simp [bump, h]

/-- A tally starting from a non-empty dict stays non-empty. -/
theorem foldl_bump_ne_nil (f : Detection → String) :
    ∀ (dets : List Detection) (init : List (String × Nat)), init ≠ [] →
      dets.foldl (fun acc d => bump (f d) acc) init ≠ [] := by
  intro dets
  induction dets with
  | nil => intro init h; simpa using h
  | cons d rest ih =>
    intro init _
    exact ih (bump (f d) init) (bump_ne_nil (f d) init)

/-- Key order produced by inserting `k` into an insertion-ordered dict:
a known key keeps the order, a fresh key goes to the back. -/
def add_key (ks : List String) (k : String) : List String :=
  if k ∈ ks then ks else ks ++ [k]

/-- `bump` realizes exactly the Python-dict key order discipline. -/
theorem bump_keys (k : String) : ∀ l : List (String × Nat),
    (bump k l).map Prod.fst = add_key (l.map Prod.fst) k := by
  intro l
  induction l with
  | nil => simp [bump, add_key]
  | cons a rest ih =>
    obtain ⟨k1, n⟩ := a
    by_cases h : k1 = k
    · subst h
      simp [bump, add_key]
    · by_cases h2 : k ∈ rest.map Prod.fst
      · simp [bump, h, ih, add_key, h2, Ne.symm h]
      · simp [bump, h, ih, add_key, h2, Ne.symm h]

/-- The keys of a tally are the distinct `f`-keys of the input, in order
of first occurrence (Python-dict insertion order). -/
theorem tally_keys (f : Detection → String) :
    ∀ (dets : List Detection) (init : List (String × Nat)),
      (dets.foldl (fun acc d => bump (f d) acc) init).map Prod.fst
        = (dets.map f).foldl add_key (init.map Prod.fst) := by
  intro dets
  induction dets with
  | nil => intro init; rfl
  | cons d rest ih =>
    intro init
    calc ((d :: rest).foldl (fun acc x => bump (f x) acc) init).map Prod.fst
        = (rest.foldl (fun acc x => bump (f x) acc) (bump (f d) init)).map Prod.fst := rfl
      _ = (rest.map f).foldl add_key ((bump (f d) init).map Prod.fst) := ih _
      _ = (rest.map f).foldl add_key (add_key (init.map Prod.fst) (f d)) := by
            rw [bump_keys]
      _ = ((d :: rest).map f).foldl add_key (init.map Prod.fst) := rfl

/-- The running Python `max` dominates its seed and everything folded in. -/
theorem pyMaxAux_ge : ∀ (xs : List (String × Nat)) (b : String × Nat),
    b.2 ≤ (pyMaxAux b xs).2 ∧ ∀ a ∈ xs, a.2 ≤ (pyMaxAux b xs).2 := by
  intro xs
  induction xs with
  | nil => intro b; exact ⟨le_refl _, by simp⟩
  | cons a rest ih =>
    intro b
    obtain ⟨hb, hall⟩ := ih (if b.2 < a.2 then a else b)
    have hb2 : b.2 ≤ (if b.2 < a.2 then a else b).2 := by
      split <;> omega
    have ha2 : a.2 ≤ (if b.2 < a.2 then a else b).2 := by
      split <;> omega
    refine ⟨le_trans hb2 hb, ?_⟩
    intro c hc
    rcases List.mem_cons.1 hc with h1 | h1
    · subst h1
      exact le_trans ha2 hb
    · exact hall c h1

/-- The running Python `max` is one of the candidates. -/
theorem pyMaxAux_mem : ∀ (xs : List (String × Nat)) (b : String × Nat),
    pyMaxAux b xs ∈ b :: xs := by
  intro xs
  induction xs with
  | nil => intro b; simp [pyMaxAux]
  | cons a rest ih =>
    intro b
    have h := ih (if b.2 < a.2 then a else b)
    show pyMaxAux (if b.2 < a.2 then a else b) rest ∈ b :: a :: rest
    rcases List.mem_cons.1 h with h1 | h1
    · rw [h1]
      split
      · simp
      · simp
    · exact List.mem_cons_of_mem _ (List.mem_cons_of_mem _ h1)

/-- Everything strictly before the Python `max` in candidate order has a
strictly smaller count: CPython `max` keeps the earlier item on ties. -/
theorem pyMaxAux_decomp : ∀ (xs : List (String × Nat)) (b : String × Nat),
    ∃ l1 l2, b :: xs = l1 ++ pyMaxAux b xs :: l2 ∧
      ∀ c ∈ l1, c.2 < (pyMaxAux b xs).2 := by
  intro xs
  induction xs with
  | nil => intro b; exact ⟨[], [], rfl, by simp⟩
  | cons a rest ih =>
    intro b
    obtain ⟨l1, l2, heq, hlt⟩ := ih (if b.2 < a.2 then a else b)
    show ∃ u1 u2, b :: a :: rest = u1 ++ pyMaxAux (if b.2 < a.2 then a else b) rest :: u2 ∧
      ∀ c ∈ u1, c.2 < (pyMaxAux (if b.2 < a.2 then a else b) rest).2
    by_cases hba : b.2 < a.2
    · rw [if_pos hba] at heq hlt ⊢
      refine ⟨b :: l1, l2, ?_, ?_⟩
      · rw [List.cons_append, ← heq]
      · intro c hc
        rcases List.mem_cons.1 hc with h1 | h1
        · subst h1
          have hge := (pyMaxAux_ge rest a).1
          omega
        · exact hlt c h1
    · rw [if_neg hba] at heq hlt ⊢
      cases l1 with
      | nil =>
        simp only [List.nil_append] at heq
        have hM : pyMaxAux b rest = b := by
          injection heq with e1 _
          exact e1.symm
        refine ⟨[], a :: rest, ?_, by simp⟩
        rw [List.nil_append, hM]
      | cons c l1t =>
        rw [List.cons_append] at heq
        injection heq with e1 e2
        refine ⟨b :: a :: l1t, l2, ?_, ?_⟩
        · simp only [List.cons_append]
          exact congrArg (fun t => b :: a :: t) e2
        · intro y hy
          have hcb : c.2 < (pyMaxAux b rest).2 := hlt c (by simp)
          have e1s : b.2 = c.2 := congrArg Prod.snd e1
          have hbM : b.2 < (pyMaxAux b rest).2 := by omega
          rcases List.mem_cons.1 hy with h1 | h1
          · rw [h1]
            exact hbM
          · rcases List.mem_cons.1 h1 with h2 | h2
            · rw [h2]
              omega
            · exact hlt y (by simp [h2])

/-- `find?` returns `m` when everything before `m` fails the predicate
and `m` satisfies it. -/
theorem find?_first_true (p : String × Nat → Bool) (m : String × Nat) :
    ∀ (l1 l2 : List (String × Nat)), (∀ c ∈ l1, p c = false) → p m = true →
      (l1 ++ m :: l2).find? p = some m := by
  intro l1
  induction l1 with
  | nil =>
    intro l2 _ hm
    simpa using List.find?_cons_of_pos l2 hm
  | cons c rest ih =>
    intro l2 hall hm
    have hc : p c = false := hall c (by simp)
    rw [List.cons_append, List.find?_cons_of_neg _ (by simp [hc])]
    exact ih l2 (fun x hx => hall x (by simp [hx])) hm

/-- Python `max(items, key=count)` on a non-empty counts dict returns the
first entry attaining the maximal count. -/
theorem pyMax_first_max (l : List (String × Nat)) (h : l ≠ []) :
    ∃ m, pyMax l = some m ∧ m ∈ l ∧ (∀ q ∈ l, q.2 ≤ m.2) ∧
      l.find? (fun p => l.all (fun q => decide (q.2 ≤ p.2))) = some m := by
  cases l with
  | nil => exact absurd rfl h
  | cons x xs =>
    have hmax : ∀ q ∈ x :: xs, q.2 ≤ (pyMaxAux x xs).2 := by
      intro q hq
      rcases List.mem_cons.1 hq with h1 | h1
      · rw [h1]
        exact (pyMaxAux_ge xs x).1
      · exact (pyMaxAux_ge xs x).2 q h1
    refine ⟨pyMaxAux x xs, rfl, pyMaxAux_mem xs x, hmax, ?_⟩
    obtain ⟨l1, l2, heq, hlt⟩ := pyMaxAux_decomp xs x
    have hm : ((x :: xs).all (fun q => decide (q.2 ≤ (pyMaxAux x xs).2))) = true := by
      simp only [List.all_eq_true]
      intro q hq
      simpa using hmax q hq
    have hfalse : ∀ c ∈ l1,
        ((x :: xs).all (fun q => decide (q.2 ≤ c.2))) = false := by
      intro c hc
      have hcm : c.2 < (pyMaxAux x xs).2 := hlt c hc
      have hmem : pyMaxAux x xs ∈ x :: xs := pyMaxAux_mem xs x
      rcases Bool.eq_false_or_eq_true ((x :: xs).all (fun q => decide (q.2 ≤ c.2))) with hb | hb
      · exfalso
        rw [List.all_eq_true] at hb
        have := hb (pyMaxAux x xs) hmem
        simp at this
        omega
      · exact hb
    rw [heq] at hm hfalse ⊢
    exact find?_first_true _ _ l1 l2 hfalse hm

/-- Number of detections of a given severity. -/
def count_severity (dets : List Detection) (s : String) : Nat :=
  (dets.filter (fun d => d.severity == s)).length

/-- C1: for every non-empty detection list, the pattern analysis returns a
severity distribution in which the keys `critical`, `high` and `medium`
are always present, each holding the tally of detections of that severity
(defaulting to 0 when none occur), and a risk level equal to `"high"`
when the critical count is positive, else `"medium"` when the high count
is positive, else `"low"`. -/
theorem severity_distribution_risk_level (dets : List Detection) (h : dets ≠ []) :
    ∃ sd, (analyze_threat_patterns_sync dets).severity_distribution = some sd ∧
      sd.lookup "critical" = some (count_severity dets "critical") ∧
      sd.lookup "high" = some (count_severity dets "high") ∧
      sd.lookup "medium" = some (count_severity dets "medium") ∧
      (analyze_threat_patterns_sync dets).risk_level =
        some (if 0 < count_severity dets "critical" then "high"
          else if 0 < count_severity dets "high" then "medium" else "low") := by
  have hc : (dets.foldl (fun acc d => bump d.severity acc)
      [("critical", 0), ("high", 0), ("medium", 0)]).lookup "critical"
      = some (count_severity dets "critical") := by
    simpa [count_severity] using
      lookup_tally (fun d => d.severity) "critical" dets
        [("critical", 0), ("high", 0), ("medium", 0)] 0 (by decide)
  have hh : (dets.foldl (fun acc d => bump d.severity acc)
      [("critical", 0), ("high", 0), ("medium", 0)]).lookup "high"
      = some (count_severity dets "high") := by
    simpa [count_severity] using
      lookup_tally (fun d => d.severity) "high" dets
        [("critical", 0), ("high", 0), ("medium", 0)] 0 (by decide)
  have hm2 : (dets.foldl (fun acc d => bump d.severity acc)
      [("critical", 0), ("high", 0), ("medium", 0)]).lookup "medium"
      = some (count_severity dets "medium") := by
    simpa [count_severity] using
      lookup_tally (fun d => d.severity) "medium" dets
        [("critical", 0), ("high", 0), ("medium", 0)] 0 (by decide)
  refine ⟨dets.foldl (fun acc d => bump d.severity acc)
      [("critical", 0), ("high", 0), ("medium", 0)], ?_, hc, hh, hm2, ?_⟩
  · simp [analyze_threat_patterns_sync, h]
  · simp [analyze_threat_patterns_sync, h, lookupD, hc, hh]

/-- C1 witness: Scenario A of the spec (one critical submarine, two high
divers) instantiates the C1 theorem. -/
def detA : Detection :=
  { threat_type := "submarine", confidence := 89/100, severity := "critical",
    bbox := ⟨0, 0, 10, 10⟩, area := 100 }

/-- Second Scenario A detection. -/
def detB : Detection :=
  { threat_type := "diver", confidence := 3/5, severity := "high",
    bbox := ⟨0, 0, 5, 5⟩, area := 25 }

/-- Third Scenario A detection. -/
def detC : Detection :=
  { threat_type := "diver", confidence := 11/20, severity := "high",
    bbox := ⟨1, 1, 6, 6⟩, area := 25 }

/-- Scenario B style detection of a second threat type for the tie-break. -/
def detD : Detection :=
  { threat_type := "mine", confidence := 7/10, severity := "critical",
    bbox := ⟨0, 0, 2, 2⟩, area := 4 }

/-- Witness for the C1 theorem at the concrete Scenario A input. -/
theorem severity_distribution_risk_level_witness :
    ([detA, detB, detC] : List Detection) ≠ [] ∧
    (∃ sd, (analyze_threat_patterns_sync [detA, detB, detC]).severity_distribution = some sd ∧
      sd.lookup "critical" = some (count_severity [detA, detB, detC] "critical") ∧
      sd.lookup "high" = some (count_severity [detA, detB, detC] "high") ∧
      sd.lookup "medium" = some (count_severity [detA, detB, detC] "medium") ∧
      (analyze_threat_patterns_sync [detA, detB, detC]).risk_level =
        some (if 0 < count_severity [detA, detB, detC] "critical" then "high"
          else if 0 < count_severity [detA, detB, detC] "high" then "medium" else "low")) :=
  ⟨by decide, severity_distribution_risk_level [detA, detB, detC] (by decide)⟩

/-- C2: for every non-empty detection list, `most_common_threat` is an
entry of `threat_distribution` with maximal count and, among entries of
maximal count, the first in distribution order; the distribution's key
order is the order of first occurrence of each threat type in the input,
so ties go to the type encountered first in input order. -/
theorem most_common_threat_first_max (dets : List Detection) (h : dets ≠ []) :
    ∃ td mc, (analyze_threat_patterns_sync dets).threat_distribution = some td ∧
      (analyze_threat_patterns_sync dets).most_common_threat = some mc ∧
      td.map Prod.fst = (dets.map (fun d => d.threat_type)).foldl add_key [] ∧
      mc ∈ td ∧ (∀ q ∈ td, q.2 ≤ mc.2) ∧
      td.find? (fun p => td.all (fun q => decide (q.2 ≤ p.2))) = some mc := by
  have hne : (dets.foldl (fun acc d => bump d.threat_type acc) []) ≠ [] := by
    cases dets with
    | nil => exact absurd rfl h
    | cons d rest =>
      exact foldl_bump_ne_nil (fun d => d.threat_type) rest
        (bump d.threat_type []) (bump_ne_nil _ _)
  obtain ⟨m, hpm, hmem, hmax, hfind⟩ :=
    pyMax_first_max (dets.foldl (fun acc d => bump d.threat_type acc) []) hne
  refine ⟨dets.foldl (fun acc d => bump d.threat_type acc) [], m, ?_, ?_, ?_,
    hmem, hmax, hfind⟩
  · simp [analyze_threat_patterns_sync, h]
  · simp [analyze_threat_patterns_sync, h]
    exact hpm
  · simpa using tally_keys (fun d => d.threat_type) dets []

/-- Witness for the C2 theorem at a concrete two-way tie (Scenario B):
diver first, mine second, one detection each. -/
theorem most_common_threat_first_max_witness :
    ([detB, detD] : List Detection) ≠ [] ∧
    (∃ td mc, (analyze_threat_patterns_sync [detB, detD]).threat_distribution = some td ∧
      (analyze_threat_patterns_sync [detB, detD]).most_common_threat = some mc ∧
      td.map Prod.fst = (([detB, detD] : List Detection).map (fun d => d.threat_type)).foldl add_key [] ∧
      mc ∈ td ∧ (∀ q ∈ td, q.2 ≤ mc.2) ∧
      td.find? (fun p => td.all (fun q => decide (q.2 ≤ p.2))) = some mc) :=
  ⟨by decide, most_common_threat_first_max [detB, detD] (by decide)⟩

/-- C3 counterexample: on the empty detection list the code returns a
dict holding only `pattern_summary`; the two distribution keys are not
present at all (`none` in the embedding), so they are in particular not
present-and-empty as the claim asserts. -/
theorem analyze_empty_distributions_absent :
    ¬ ((analyze_threat_patterns_sync []).threat_distribution = some [] ∧
       (analyze_threat_patterns_sync []).severity_distribution = some []) := by
  decide

/-- C3 amended: on the empty detection list the analysis returns a report
whose `pattern_summary` states that no threats were detected and which
contains no other key: in particular `threat_distribution` and
`severity_distribution` are absent rather than present-and-empty. -/
theorem analyze_empty_report :
    analyze_threat_patterns_sync [] =
      { pattern_summary := some "No threats detected"
        most_common_threat := none
        threat_distribution := none
        severity_distribution := none
        average_confidence := none
        total_threats := none
        risk_level := none } := rfl

/-- C4: severity is a pure deterministic function of the threat type
alone: `submarine`/`mine` map to `critical`, `diver`/`drone` to `high`,
`suspicious_object` to `medium`, anything else to `low`; and the severity
stored in a built detection depends only on its threat type, never on
confidence or box position. -/
theorem severity_pure_of_threat_type (t : String) (r : RawBox) :
    severity_of t = (if t = "submarine" ∨ t = "mine" then "critical"
      else if t = "diver" ∨ t = "drone" then "high"
      else if t = "suspicious_object" then "medium" else "low") ∧
    (build_detection r).severity = severity_of (build_detection r).threat_type := by
  refine ⟨?_, rfl⟩
  by_cases h1 : t = "submarine"
  · subst h1
    decide
  · by_cases h2 : t = "mine"
    · subst h2
      decide
    · by_cases h3 : t = "diver"
      · subst h3
        decide
      · by_cases h4 : t = "drone"
        · subst h4
          decide
        · by_cases h5 : t = "suspicious_object"
          · subst h5
            decide
          · rw [if_neg (by tauto), if_neg (by tauto), if_neg h5]
            unfold severity_of threat_severity
            rw [lookup_cons_ne _ _ h1, lookup_cons_ne _ _ h2, lookup_cons_ne _ _ h3,
              lookup_cons_ne _ _ h4, lookup_cons_ne _ _ h5]
            rfl

/-- Every value of an association list being `v` forces the defaulted
lookup to return `v`, whatever the key. -/
theorem lookup_getD_const (v : String) (k : Int) :
    ∀ l : List (Int × String), (∀ p ∈ l, p.2 = v) → (l.lookup k).getD v = v := by
  intro l
  induction l with
  | nil => intro _; rfl
  | cons a rest ih =>
    intro hall
    obtain ⟨k1, v1⟩ := a
    rw [List.lookup_cons]
    cases hbeq : k == k1
    · exact ih (fun p hp => hall p (by simp [hp]))
    · simpa using hall (k1, v1) (by simp)

/-- C9: the detector class mapping returns `suspicious_object` for every
integer class id (entries 0-8 and the `.get` fallback all yield it), so
every detection built from real detector output has threat type
`suspicious_object` and severity `medium`; on ids 0-3 the five-way
`threat_classes` table disagrees with the mapping actually used, so that
table is demonstrably not consulted in the detection path. -/
theorem map_class_always_suspicious (cid : Int) (conf : ℚ) (bb : BBox) :
    map_class_to_threat cid = "suspicious_object" ∧
    (build_detection ⟨cid, conf, bb⟩).threat_type = "suspicious_object" ∧
    (build_detection ⟨cid, conf, bb⟩).severity = "medium" ∧
    (∀ i : Int, i = 0 ∨ i = 1 ∨ i = 2 ∨ i = 3 →
      threat_classes.lookup i ≠ some (map_class_to_threat i)) := by
  have hmap : map_class_to_threat cid = "suspicious_object" :=
    lookup_getD_const "suspicious_object" cid common_to_threat (by decide)
  refine ⟨hmap, hmap, ?_, ?_⟩
  · show severity_of (map_class_to_threat cid) = "medium"
    rw [hmap]
    decide
  · intro i hi
    rcases hi with h | h | h | h <;> rw [h] <;> decide

/-- Decoded image at the file level: spatial dimensions plus a flat
row-major sample buffer (3 samples per pixel, as `cv2.imread` yields). -/
structure Img where
  height : Nat
  width : Nat
  pix : List ℚ
  deriving DecidableEq, Repr

/-- Spatial part of `numpy`'s `.shape` (the channel count is fixed at 3
for every `cv2.imread` result, so comparing spatial dimensions is what
`original.shape != enhanced.shape` decides). -/
def shape (img : Img) : Nat × Nat := (img.height, img.width)

/-- Per-image threat summary built by `_calculate_threat_summary`. -/
structure ThreatSummary where
  total_threats : Nat
  critical_threats : Nat
  high_threats : Nat
  medium_threats : Nat
  threat_types : List (String × Nat)
  deriving DecidableEq, Repr

/-- Loop body of `_calculate_threat_summary` (lines 315-330): count by
severity with an if/elif chain that ignores `low`, then count by type. -/
def summary_step (s : ThreatSummary) (d : Detection) : ThreatSummary :=
  let s1 := if d.severity = "critical" then { s with critical_threats := s.critical_threats + 1 }
    else if d.severity = "high" then { s with high_threats := s.high_threats + 1 }
    else if d.severity = "medium" then { s with medium_threats := s.medium_threats + 1 }
    else s
  { s1 with threat_types := bump d.threat_type s1.threat_types }

/-- Embedding of `_calculate_threat_summary` (lines 296-332). -/
def calculate_threat_summary (detections : List Detection) : ThreatSummary :=
  if detections = [] then
    { total_threats := 0, critical_threats := 0, high_threats := 0,
      medium_threats := 0, threat_types := [] }
  else detections.foldl summary_step
    { total_threats := detections.length, critical_threats := 0, high_threats := 0,
      medium_threats := 0, threat_types := [] }

/-- Python `os.path.basename`: the part after the last slash. -/
def basename (p : String) : String := (p.splitOn "/").getLastD p

/-- Python `os.path.splitext`: split at the last dot.  (CPython keeps a
sole leading dot with the name; that corner is irrelevant here, since
only whether an annotated path exists at all is at stake.) -/
def splitext (s : String) : String × String :=
  let parts := s.splitOn "."
  if parts.length ≤ 1 then (s, "")
  else (String.intercalate "." parts.dropLast, "." ++ parts.getLastD "")

/-- Output path built by `_create_annotated_image` (lines 274-278):
`enhanced/<name>_detected<ext>`. -/
def annotated_image_path (original_path : String) : String :=
  let ne := splitext (basename original_path)
  "enhanced/" ++ ne.1 ++ "_detected" ++ ne.2

/-- Return value of `_detect_threats_sync` (the fields the claims are
about; `annotated_image` is the saved path, `none` when no annotated
image is created). -/
structure DetectResult where
  total_detections : Nat
  detections : List Detection
  threat_summary : ThreatSummary
  annotated_image : Option String
  deriving DecidableEq, Repr

/-- Embedding of `_detect_threats_sync` (lines 94-164) on the model path:
`image` is the `cv2.imread` result (`none` raises), `raw` the boxes the
YOLO model produced; an annotated image is created only when the
detection list is non-empty (line 139 `if detections:`). -/
def detect_threats_sync (image : Option Img) (image_path : String)
    (raw : List RawBox) : Except String DetectResult :=
  match image with
  | none => Except.error ("Could not load image: " ++ image_path)
  | some _ =>
    let detections := raw.map build_detection
    let annotated : Option String :=
      if detections = [] then none else some (annotated_image_path image_path)
    Except.ok { total_detections := detections.length
                detections := detections
                threat_summary := calculate_threat_summary detections
                annotated_image := annotated }

/-- `np.clip(x, 0, 1)`. -/
def clip01 (q : ℚ) : ℚ := min (max q 0) 1

/-- Metrics record returned by `_calculate_metrics_sync`. -/
structure QualityMetrics where
  psnr : ℚ
  ssim : ℚ
  uiqm : ℚ
  deriving DecidableEq, Repr

/-- Body of the `try` block of `_calculate_uiqm` (lines 235-251): the
three cv2-based sub-metrics (passed as fallible functions, since any of
them may raise inside the library) combined with the fixed weights
`0.4/0.3/0.3`. -/
def uiqm_components (colorfulness sharpness contrast : Img → Except String ℚ)
    (img : Img) : Except String ℚ := do
  let c ← colorfulness img
  let s ← sharpness img
  let k ← contrast img
  pure (2/5 * c + 3/10 * s + 3/10 * k)

/-- Embedding of `_calculate_uiqm`: any exception inside the `try` block
is swallowed and turned into the value `0.0` (lines 253-255). -/
def calculate_uiqm (colorfulness sharpness contrast : Img → Except String ℚ)
    (img : Img) : ℚ :=
  match uiqm_components colorfulness sharpness contrast img with
  | Except.ok v => v
  | Except.error _ => 0

/-- Embedding of `_calculate_metrics_sync` (lines 194-228).  `resizeF`
models `cv2.resize`, `psnrF`/`ssimF` the skimage metrics (external,
total here), and the three UIQM sub-metrics stay fallible.  A `none`
image is an undecodable input and raises (`Except.error`); on a shape
mismatch the enhanced image is resized to the original's width and
height before any metric is computed. -/
def calculate_metrics_sync (resizeF : Img → Nat → Nat → Img)
    (psnrF ssimF : Img → Img → ℚ)
    (colorfulness sharpness contrast : Img → Except String ℚ)
    (original enhanced : Option Img) : Except String QualityMetrics :=
  match original, enhanced with
  | some o, some e =>
    let e2 := if shape o ≠ shape e then resizeF e o.width o.height else e
    Except.ok { psnr := psnrF o e2
                ssim := ssimF o e2
                uiqm := calculate_uiqm colorfulness sharpness contrast e2 }
  | _, _ => Except.error "Could not load images for metrics calculation"

/-- Pointwise body of `_enhance_red_channel` on a BGR pixel (the channel
at index 2 is red): `np.clip(red * 1.5, 0, 1)`, blue and green copied. -/
def boost_red (p : ℚ × ℚ × ℚ) : ℚ × ℚ × ℚ := (p.1, p.2.1, clip01 (p.2.2 * (3/2)))

/-- Embedding of `_enhance_red_channel` (lines 122-130) on a normalized
float image given as rows of BGR pixels. -/
def enhance_red_channel (img : List (List (ℚ × ℚ × ℚ))) : List (List (ℚ × ℚ × ℚ)) :=
  img.map (fun row => row.map boost_red)

/-- Sum of the red channel over the whole image. -/
def red_sum (img : List (List (ℚ × ℚ × ℚ))) : ℚ :=
  (img.flatten.map (fun p => p.2.2)).sum

/-- Mean of the red channel (0 on an empty image, where the count is 0). -/
def mean_red (img : List (List (ℚ × ℚ × ℚ))) : ℚ :=
  red_sum img / (img.flatten.length : ℚ)

/-- Channelwise maximum of two BGR pixels. -/
def chan_max (p q : ℚ × ℚ × ℚ) : ℚ × ℚ × ℚ :=
  (max p.1 q.1, max p.2.1 q.2.1, max p.2.2 q.2.2)

/-- `np.max(image, axis=(0, 1))` of `_simple_dehaze`: the per-channel
maximum over all pixels (for the empty image, where numpy would raise,
the model returns the zero pixel). -/
def atmospheric_light (img : List (List (ℚ × ℚ × ℚ))) : ℚ × ℚ × ℚ :=
  match img.flatten with
  | [] => (0, 0, 0)
  | p :: ps => ps.foldl chan_max p

/-- Value of one numpy float64 sample in the dehazer: a finite value
(exact, as a rational), `+inf`, `-inf`, or `NaN`.  Finite rounding is
immaterial to the floor/range claims; the non-finite values are what the
program really produces when an atmospheric-light channel is zero. -/
inductive NpVal where
  | fin (q : ℚ)
  | pinf
  | ninf
  | nan
  deriving DecidableEq, Repr

/-- numpy float64 division: `0/0 = NaN`, `x/0 = ±inf` for `x ≠ 0`,
`x/±inf = 0`, `NaN` propagates, `inf/inf = NaN`. -/
def npDiv : NpVal → NpVal → NpVal
  | .fin x, .fin y =>
    if y = 0 then (if x = 0 then .nan else if 0 < x then .pinf else .ninf)
    else .fin (x / y)
  | .fin _, .pinf => .fin 0
  | .fin _, .ninf => .fin 0
  | .pinf, .fin y => if 0 ≤ y then .pinf else .ninf
  | .ninf, .fin y => if 0 ≤ y then .ninf else .pinf
  | .pinf, .pinf => .nan
  | .pinf, .ninf => .nan
  | .ninf, .pinf => .nan
  | .ninf, .ninf => .nan
  | .nan, _ => .nan
  | _, .nan => .nan

/-- numpy float64 multiplication: `0 * ±inf = NaN`, signs multiply on
infinities, `NaN` propagates. -/
def npMul : NpVal → NpVal → NpVal
  | .fin x, .fin y => .fin (x * y)
  | .fin x, .pinf => if x = 0 then .nan else if 0 < x then .pinf else .ninf
  | .fin x, .ninf => if x = 0 then .nan else if 0 < x then .ninf else .pinf
  | .pinf, .fin y => if y = 0 then .nan else if 0 < y then .pinf else .ninf
  | .ninf, .fin y => if y = 0 then .nan else if 0 < y then .ninf else .pinf
  | .pinf, .pinf => .pinf
  | .pinf, .ninf => .ninf
  | .ninf, .pinf => .ninf
  | .ninf, .ninf => .pinf
  | .nan, _ => .nan
  | _, .nan => .nan

/-- numpy float64 negation. -/
def npNeg : NpVal → NpVal
  | .fin x => .fin (-x)
  | .pinf => .ninf
  | .ninf => .pinf
  | .nan => .nan

/-- numpy float64 addition: `inf + (-inf) = NaN`, `NaN` propagates. -/
def npAdd : NpVal → NpVal → NpVal
  | .fin x, .fin y => .fin (x + y)
  | .fin _, .pinf => .pinf
  | .fin _, .ninf => .ninf
  | .pinf, .fin _ => .pinf
  | .ninf, .fin _ => .ninf
  | .pinf, .pinf => .pinf
  | .ninf, .ninf => .ninf
  | .pinf, .ninf => .nan
  | .ninf, .pinf => .nan
  | _, _ => .nan

/-- numpy float64 subtraction. -/
def npSub (a b : NpVal) : NpVal := npAdd a (npNeg b)

/-- `np.minimum`: propagates `NaN` (the behaviour of `np.min` over the
channel axis as well). -/
def npMin : NpVal → NpVal → NpVal
  | .nan, _ => .nan
  | _, .nan => .nan
  | .ninf, _ => .ninf
  | _, .ninf => .ninf
  | .pinf, b => b
  | a, .pinf => a
  | .fin x, .fin y => .fin (min x y)

/-- `np.maximum`: propagates `NaN` — this is why the `0.1` floor of the
dehazer fails on a `NaN` transmission value. -/
def npMax : NpVal → NpVal → NpVal
  | .nan, _ => .nan
  | _, .nan => .nan
  | .pinf, _ => .pinf
  | _, .pinf => .pinf
  | .ninf, b => b
  | a, .ninf => a
  | .fin x, .fin y => .fin (max x y)

/-- `np.clip(x, 0, 1)` on a float sample: `NaN` stays `NaN`. -/
def npClip01 (v : NpVal) : NpVal := npMin (npMax v (NpVal.fin 0)) (NpVal.fin 1)

/-- IEEE `<=` on numpy floats: false whenever either side is `NaN`. -/
def npLe : NpVal → NpVal → Bool
  | .nan, _ => false
  | _, .nan => false
  | .ninf, _ => true
  | _, .pinf => true
  | .pinf, _ => false
  | .fin _, .ninf => false
  | .fin x, .fin y => decide (x ≤ y)

/-- Transmission value used for one pixel (lines 152-153):
`1 - 0.3 * min_channel(pixel / atmospheric_light)`, then
`np.maximum(transmission, 0.1)` — in numpy float arithmetic, so a zero
atmospheric-light channel makes the whole expression `NaN`. -/
def transmission_at (a p : ℚ × ℚ × ℚ) : NpVal :=
  npMax (npSub (NpVal.fin 1) (npMul (NpVal.fin (3/10))
      (npMin (npDiv (NpVal.fin p.1) (NpVal.fin a.1))
        (npMin (npDiv (NpVal.fin p.2.1) (NpVal.fin a.2.1))
          (npDiv (NpVal.fin p.2.2) (NpVal.fin a.2.2))))))
    (NpVal.fin (1/10))

/-- The transmission map of `_simple_dehaze` after the floor, exactly
the values the recovery step divides by. -/
def transmission_map (img : List (List (ℚ × ℚ × ℚ))) : List (List NpVal) :=
  let a := atmospheric_light img
  img.map (fun row => row.map (transmission_at a))

/-- Scene recovery for one pixel (lines 156-158):
`(pixel - A) / transmission + A`, clipped to `[0, 1]` per channel, in
numpy float arithmetic. -/
def recover_at (a p : ℚ × ℚ × ℚ) : NpVal × NpVal × NpVal :=
  let t := transmission_at a p
  (npClip01 (npAdd (npDiv (npSub (NpVal.fin p.1) (NpVal.fin a.1)) t) (NpVal.fin a.1)),
   npClip01 (npAdd (npDiv (npSub (NpVal.fin p.2.1) (NpVal.fin a.2.1)) t) (NpVal.fin a.2.1)),
   npClip01 (npAdd (npDiv (npSub (NpVal.fin p.2.2) (NpVal.fin a.2.2)) t) (NpVal.fin a.2.2)))

/-- Embedding of `_simple_dehaze` (lines 146-158). -/
def simple_dehaze (img : List (List (ℚ × ℚ × ℚ))) : List (List (NpVal × NpVal × NpVal)) :=
  let a := atmospheric_light img
  img.map (fun row => row.map (recover_at a))

/-- C5 counterexample: with a decodable 1x1 image and an empty raw
detection list, `_detect_threats_sync` succeeds with an all-zero summary
but creates no annotated image at all (`annotated_image = none`), while
the claim asserts an annotated image identical to the input is produced. -/
theorem detect_empty_no_annotated_image :
    detect_threats_sync (some { height := 1, width := 1, pix := [0, 0, 0] })
        "uploads/20250101_img.jpg" [] =
      Except.ok { total_detections := 0, detections := [],
                  threat_summary := { total_threats := 0, critical_threats := 0,
                                      high_threats := 0, medium_threats := 0,
                                      threat_types := [] },
                  annotated_image := none } := rfl

/-- C5 amended: for every decodable image and every path, an empty raw
detection list is processed successfully (no error), yields a
`ThreatSummary` with total/critical/high/medium all zero and an empty
threat-type map, and produces no annotated image (the `annotated_image`
field is `none`; the code only creates one when detections exist). -/
theorem detect_empty_raw_detections (img : Img) (p : String) :
    detect_threats_sync (some img) p [] =
      Except.ok { total_detections := 0, detections := [],
                  threat_summary := { total_threats := 0, critical_threats := 0,
                                      high_threats := 0, medium_threats := 0,
                                      threat_types := [] },
                  annotated_image := none } := rfl

/-- C6: for every pair of decodable images whose spatial dimensions
differ, and for every behaviour of the external resize/PSNR/SSIM/UIQM
routines, `_calculate_metrics_sync` resizes the enhanced image to the
original's width and height, computes every metric on the resized image,
and returns `Except.ok`: the dimension mismatch is never surfaced as an
error. -/
theorem metrics_resize_on_mismatch (resizeF : Img → Nat → Nat → Img)
    (psnrF ssimF : Img → Img → ℚ) (cF sF kF : Img → Except String ℚ)
    (o e : Img) (h : shape o ≠ shape e) :
    calculate_metrics_sync resizeF psnrF ssimF cF sF kF (some o) (some e) =
      Except.ok { psnr := psnrF o (resizeF e o.width o.height)
                  ssim := ssimF o (resizeF e o.width o.height)
                  uiqm := calculate_uiqm cF sF kF (resizeF e o.width o.height) } := by
  simp [calculate_metrics_sync, h]

/-- Witness for C6 at concrete 1x1 versus 2x2 images with trivial
external routines. -/
theorem metrics_resize_on_mismatch_witness :
    shape { height := 1, width := 1, pix := ([0, 0, 0] : List ℚ) } ≠
      shape { height := 2, width := 2, pix := ([] : List ℚ) } ∧
    calculate_metrics_sync (fun i w h2 => { height := h2, width := w, pix := i.pix })
        (fun _ _ => 0) (fun _ _ => 0)
        (fun _ => Except.ok 0) (fun _ => Except.ok 0) (fun _ => Except.ok 0)
        (some { height := 1, width := 1, pix := ([0, 0, 0] : List ℚ) })
        (some { height := 2, width := 2, pix := ([] : List ℚ) }) =
      Except.ok { psnr := 0, ssim := 0,
                  uiqm := calculate_uiqm (fun _ => Except.ok 0) (fun _ => Except.ok 0)
                    (fun _ => Except.ok 0)
                    { height := 1, width := 1, pix := ([] : List ℚ) } } :=
  ⟨by decide, metrics_resize_on_mismatch _ _ _ _ _ _ _ _ (by decide)⟩

/-- C10: when the UIQM computation fails internally (one of its
cv2-based sub-metrics raises), `_calculate_metrics_sync` still returns a
fully populated metrics record whose `uiqm` is `0.0`, while `psnr` and
`ssim` keep their computed values: the UIQM failure is silently absorbed
rather than surfaced as a metrics-computation error. -/
theorem uiqm_failure_absorbed (resizeF : Img → Nat → Nat → Img)
    (psnrF ssimF : Img → Img → ℚ) (cF sF kF : Img → Except String ℚ)
    (o e : Img) (msg : String)
    (h : uiqm_components cF sF kF
      (if shape o ≠ shape e then resizeF e o.width o.height else e) = Except.error msg) :
    calculate_metrics_sync resizeF psnrF ssimF cF sF kF (some o) (some e) =
      Except.ok { psnr := psnrF o (if shape o ≠ shape e then resizeF e o.width o.height else e)
                  ssim := ssimF o (if shape o ≠ shape e then resizeF e o.width o.height else e)
                  uiqm := 0 } := by
  simp only [calculate_metrics_sync, calculate_uiqm, h]

/-- Witness for C10: identical 1x1 images, a colorfulness routine that
raises, and PSNR/SSIM values 7 and 8 that survive unchanged. -/
theorem uiqm_failure_absorbed_witness :
    uiqm_components (fun _ => Except.error "colorfulness failed")
        (fun _ => Except.ok 0) (fun _ => Except.ok 0)
        ({ height := 1, width := 1, pix := [0, 0, 0] } : Img) =
      Except.error "colorfulness failed" ∧
    calculate_metrics_sync (fun i _ _ => i) (fun _ _ => 7) (fun _ _ => 8)
        (fun _ => Except.error "colorfulness failed")
        (fun _ => Except.ok 0) (fun _ => Except.ok 0)
        (some { height := 1, width := 1, pix := [0, 0, 0] })
        (some { height := 1, width := 1, pix := [0, 0, 0] }) =
      Except.ok { psnr := 7, ssim := 8, uiqm := 0 } :=
  ⟨rfl, uiqm_failure_absorbed (fun i _ _ => i) (fun _ _ => 7) (fun _ _ => 8)
    (fun _ => Except.error "colorfulness failed")
    (fun _ => Except.ok 0) (fun _ => Except.ok 0)
    { height := 1, width := 1, pix := [0, 0, 0] }
    { height := 1, width := 1, pix := [0, 0, 0] } "colorfulness failed" rfl⟩

/-- `np.clip(x, 0, 1)` yields a non-negative value. -/
theorem clip01_nonneg (q : ℚ) : 0 ≤ clip01 q :=
  le_min (le_max_right q 0) zero_le_one

/-- `np.clip(x, 0, 1)` yields a value at most one. -/
theorem clip01_le_one (q : ℚ) : clip01 q ≤ 1 := min_le_right _ _

/-- Division of finite numpy floats by a non-zero finite value is exact. -/
theorem npDiv_fin_ne (x y : ℚ) (hy : y ≠ 0) :
    npDiv (NpVal.fin x) (NpVal.fin y) = NpVal.fin (x / y) := by
  simp [npDiv, hy]

/-- `np.minimum` of finite values is the rational minimum. -/
theorem npMin_fin (x y : ℚ) : npMin (NpVal.fin x) (NpVal.fin y) = NpVal.fin (min x y) := rfl

/-- Multiplication of finite numpy floats is exact. -/
theorem npMul_fin (x y : ℚ) : npMul (NpVal.fin x) (NpVal.fin y) = NpVal.fin (x * y) := rfl

/-- Subtraction of finite numpy floats is exact. -/
theorem npSub_fin (x y : ℚ) : npSub (NpVal.fin x) (NpVal.fin y) = NpVal.fin (x + -y) := rfl

/-- Addition of finite numpy floats is exact. -/
theorem npAdd_fin (x y : ℚ) : npAdd (NpVal.fin x) (NpVal.fin y) = NpVal.fin (x + y) := rfl

/-- `np.maximum` of finite values is the rational maximum. -/
theorem npMax_fin (x y : ℚ) : npMax (NpVal.fin x) (NpVal.fin y) = NpVal.fin (max x y) := rfl

/-- With every atmospheric-light channel non-zero, the transmission value
is finite: the raw estimate floored at `0.1`. -/
theorem transmission_at_pos (a p : ℚ × ℚ × ℚ)
    (h1 : a.1 ≠ 0) (h2 : a.2.1 ≠ 0) (h3 : a.2.2 ≠ 0) :
    transmission_at a p = NpVal.fin (max (1 + -(3/10 * min (p.1 / a.1)
      (min (p.2.1 / a.2.1) (p.2.2 / a.2.2)))) (1/10)) := by
  unfold transmission_at
  rw [npDiv_fin_ne _ _ h1, npDiv_fin_ne _ _ h2, npDiv_fin_ne _ _ h3,
    npMin_fin, npMin_fin, npMul_fin, npSub_fin, npMax_fin]

/-- With every atmospheric-light channel non-zero, every recovered
channel is a finite clipped value. -/
theorem recover_at_pos (a p : ℚ × ℚ × ℚ)
    (h1 : a.1 ≠ 0) (h2 : a.2.1 ≠ 0) (h3 : a.2.2 ≠ 0) :
    ∃ v1 v2 v3 : ℚ, recover_at a p =
      (NpVal.fin (clip01 v1), NpVal.fin (clip01 v2), NpVal.fin (clip01 v3)) := by
  have ht := transmission_at_pos a p h1 h2 h3
  have hfloor : (1 : ℚ)/10 ≤ max (1 + -(3/10 * min (p.1 / a.1)
      (min (p.2.1 / a.2.1) (p.2.2 / a.2.2)))) (1/10) := le_max_right _ _
  have hq : max (1 + -(3/10 * min (p.1 / a.1)
      (min (p.2.1 / a.2.1) (p.2.2 / a.2.2)))) (1/10) ≠ 0 := by
    intro h0
    rw [h0] at hfloor
    norm_num at hfloor
  refine ⟨(p.1 + -a.1) / max (1 + -(3/10 * min (p.1 / a.1)
      (min (p.2.1 / a.2.1) (p.2.2 / a.2.2)))) (1/10) + a.1,
    (p.2.1 + -a.2.1) / max (1 + -(3/10 * min (p.1 / a.1)
      (min (p.2.1 / a.2.1) (p.2.2 / a.2.2)))) (1/10) + a.2.1,
    (p.2.2 + -a.2.2) / max (1 + -(3/10 * min (p.1 / a.1)
      (min (p.2.1 / a.2.1) (p.2.2 / a.2.2)))) (1/10) + a.2.2, ?_⟩
  unfold recover_at
  rw [ht]
  dsimp only
  rw [npSub_fin, npSub_fin, npSub_fin, npDiv_fin_ne _ _ hq, npDiv_fin_ne _ _ hq,
    npDiv_fin_ne _ _ hq, npAdd_fin, npAdd_fin, npAdd_fin]
  rfl

/-- C7 counterexample: on the all-black image every atmospheric-light
channel is 0, so `image / atmospheric_light` is numpy `0/0 = NaN`,
`np.maximum(NaN, 0.1) = NaN` (the `0.1` floor is not enforced), and
every recovered sample is `np.clip(NaN, 0, 1) = NaN`, which satisfies
neither `0 <= sample` nor `sample <= 1`: the claim fails as stated. -/
theorem dehaze_nan_on_black :
    ¬ ((∀ row ∈ transmission_map [[((0 : ℚ), (0 : ℚ), (0 : ℚ))]], ∀ t ∈ row,
          npLe (NpVal.fin (1/10)) t = true) ∧
       (∀ row ∈ simple_dehaze [[((0 : ℚ), (0 : ℚ), (0 : ℚ))]], ∀ p ∈ row,
          npLe (NpVal.fin 0) p.1 = true ∧ npLe p.1 (NpVal.fin 1) = true)) := by
  have e1 : transmission_map [[((0 : ℚ), (0 : ℚ), (0 : ℚ))]] = [[NpVal.nan]] := rfl
  intro hcl
  have h := hcl.1 [NpVal.nan] (by rw [e1]; exact List.mem_singleton.mpr rfl)
    NpVal.nan (List.mem_singleton.mpr rfl)
  simp [npLe] at h

/-- C7 amended: for every input image whose atmospheric light (the
per-channel maximum) is positive in every channel, every transmission
value used in the scene recovery is a finite value at least the enforced
floor `0.1`, and every sample of the dehazed output lies inside `[0, 1]`
after clipping.  (When some channel's atmospheric light is zero — e.g.
an all-black image — the program's `0/0` produces `NaN`, the floor is
not enforced and the output samples are `NaN`.) -/
theorem dehaze_transmission_floor_and_range (img : List (List (ℚ × ℚ × ℚ)))
    (h1 : 0 < (atmospheric_light img).1) (h2 : 0 < (atmospheric_light img).2.1)
    (h3 : 0 < (atmospheric_light img).2.2) :
    (∀ row ∈ transmission_map img, ∀ t ∈ row, npLe (NpVal.fin (1/10)) t = true) ∧
    (∀ row ∈ simple_dehaze img, ∀ p ∈ row,
      (npLe (NpVal.fin 0) p.1 = true ∧ npLe p.1 (NpVal.fin 1) = true) ∧
      (npLe (NpVal.fin 0) p.2.1 = true ∧ npLe p.2.1 (NpVal.fin 1) = true) ∧
      (npLe (NpVal.fin 0) p.2.2 = true ∧ npLe p.2.2 (NpVal.fin 1) = true)) := by
  constructor
  · intro row hrow t ht
    simp only [transmission_map, List.mem_map] at hrow
    obtain ⟨r0, _, hr0⟩ := hrow
    rw [← hr0] at ht
    simp only [List.mem_map] at ht
    obtain ⟨p0, _, hp0⟩ := ht
    rw [← hp0, transmission_at_pos _ _ (ne_of_gt h1) (ne_of_gt h2) (ne_of_gt h3)]
    exact decide_eq_true (le_max_right _ _)
  · intro row hrow p hp
    simp only [simple_dehaze, List.mem_map] at hrow
    obtain ⟨r0, _, hr0⟩ := hrow
    rw [← hr0] at hp
    simp only [List.mem_map] at hp
    obtain ⟨p0, _, hp0⟩ := hp
    obtain ⟨v1, v2, v3, hv⟩ :=
      recover_at_pos (atmospheric_light img) p0 (ne_of_gt h1) (ne_of_gt h2) (ne_of_gt h3)
    rw [← hp0, hv]
    exact ⟨⟨decide_eq_true (clip01_nonneg v1), decide_eq_true (clip01_le_one v1)⟩,
      ⟨decide_eq_true (clip01_nonneg v2), decide_eq_true (clip01_le_one v2)⟩,
      decide_eq_true (clip01_nonneg v3), decide_eq_true (clip01_le_one v3)⟩

/-- Witness for the amended C7 at the concrete one-pixel image
`(1, 1, 1)`, whose atmospheric light is `(1, 1, 1)`, positive in every
channel. -/
theorem dehaze_transmission_floor_and_range_witness :
    (0 < (atmospheric_light [[((1 : ℚ), (1 : ℚ), (1 : ℚ))]]).1 ∧
      0 < (atmospheric_light [[((1 : ℚ), (1 : ℚ), (1 : ℚ))]]).2.1 ∧
      0 < (atmospheric_light [[((1 : ℚ), (1 : ℚ), (1 : ℚ))]]).2.2) ∧
    ((∀ row ∈ transmission_map [[((1 : ℚ), (1 : ℚ), (1 : ℚ))]], ∀ t ∈ row,
        npLe (NpVal.fin (1/10)) t = true) ∧
      (∀ row ∈ simple_dehaze [[((1 : ℚ), (1 : ℚ), (1 : ℚ))]], ∀ p ∈ row,
        (npLe (NpVal.fin 0) p.1 = true ∧ npLe p.1 (NpVal.fin 1) = true) ∧
        (npLe (NpVal.fin 0) p.2.1 = true ∧ npLe p.2.1 (NpVal.fin 1) = true) ∧
        (npLe (NpVal.fin 0) p.2.2 = true ∧ npLe p.2.2 (NpVal.fin 1) = true))) := by
  have e : atmospheric_light [[((1 : ℚ), (1 : ℚ), (1 : ℚ))]]
      = ((1 : ℚ), (1 : ℚ), (1 : ℚ)) := rfl
  have h1 : 0 < (atmospheric_light [[((1 : ℚ), (1 : ℚ), (1 : ℚ))]]).1 := by
    rw [e]
    norm_num
  have h2 : 0 < (atmospheric_light [[((1 : ℚ), (1 : ℚ), (1 : ℚ))]]).2.1 := by
    rw [e]
    norm_num
  have h3 : 0 < (atmospheric_light [[((1 : ℚ), (1 : ℚ), (1 : ℚ))]]).2.2 := by
    rw [e]
    norm_num
  exact ⟨⟨h1, h2, h3⟩,
    dehaze_transmission_floor_and_range [[((1 : ℚ), (1 : ℚ), (1 : ℚ))]] h1 h2 h3⟩

/-- Flattening the red-boosted image is the pointwise boost of the
flattened image. -/
theorem flatten_enhance (img : List (List (ℚ × ℚ × ℚ))) :
    (enhance_red_channel img).flatten = img.flatten.map boost_red :=
  (List.map_flatten boost_red img).symm

/-- A red sample in `[0, 1]` never shrinks under `clip(r * 1.5, 0, 1)`. -/
theorem le_clip01_boost (r : ℚ) (h0 : 0 ≤ r) (h1 : r ≤ 1) : r ≤ clip01 (r * (3/2)) := by
  unfold clip01
  have hr : r ≤ r * (3/2) := by nlinarith
  exact le_min (le_trans hr (le_max_left _ _)) h1

/-- C8: on an image whose samples all lie in `[0, 1]`, the red-channel
boost is monotone on the mean of the boosted channel (output mean ≥
input mean), keeps every output sample inside `[0, 1]`, and leaves the
blue and green channels unchanged. -/
theorem red_boost_monotone (img : List (List (ℚ × ℚ × ℚ)))
    (h : ∀ p ∈ img.flatten, (0 ≤ p.1 ∧ p.1 ≤ 1) ∧ (0 ≤ p.2.1 ∧ p.2.1 ≤ 1) ∧
      (0 ≤ p.2.2 ∧ p.2.2 ≤ 1)) :
    mean_red img ≤ mean_red (enhance_red_channel img) ∧
    (∀ q ∈ (enhance_red_channel img).flatten, (0 ≤ q.1 ∧ q.1 ≤ 1) ∧
      (0 ≤ q.2.1 ∧ q.2.1 ≤ 1) ∧ (0 ≤ q.2.2 ∧ q.2.2 ≤ 1)) ∧
    (enhance_red_channel img).flatten.map (fun p => (p.1, p.2.1))
      = img.flatten.map (fun p => (p.1, p.2.1)) := by
  have hflat : (enhance_red_channel img).flatten = img.flatten.map boost_red :=
    flatten_enhance img
  refine ⟨?_, ?_, ?_⟩
  · have hsum : red_sum img ≤ red_sum (enhance_red_channel img) := by
      unfold red_sum
      rw [hflat, List.map_map]
      apply List.sum_le_sum
      intro p hp
      obtain ⟨_, _, h0, h1⟩ := h p hp
      exact le_clip01_boost p.2.2 h0 h1
    have hlen : (enhance_red_channel img).flatten.length = img.flatten.length := by
      rw [hflat, List.length_map]
    unfold mean_red
    rw [hlen]
    exact div_le_div_of_nonneg_right hsum (by positivity)
  · intro q hq
    rw [hflat] at hq
    simp only [List.mem_map] at hq
    obtain ⟨p0, hp0m, hp0⟩ := hq
    obtain ⟨hb, hg, h0, h1⟩ := h p0 hp0m
    rw [← hp0]
    exact ⟨hb, hg, clip01_nonneg _, clip01_le_one _⟩
  · rw [hflat, List.map_map]
    rfl

/-- Witness for C8 at the concrete one-pixel image `(1/2, 1/2, 1/2)`. -/
theorem red_boost_monotone_witness :
    (∀ p ∈ ([[((1 : ℚ)/2, (1 : ℚ)/2, (1 : ℚ)/2)]] : List (List (ℚ × ℚ × ℚ))).flatten,
      (0 ≤ p.1 ∧ p.1 ≤ 1) ∧ (0 ≤ p.2.1 ∧ p.2.1 ≤ 1) ∧ (0 ≤ p.2.2 ∧ p.2.2 ≤ 1)) ∧
    (mean_red [[((1 : ℚ)/2, (1 : ℚ)/2, (1 : ℚ)/2)]] ≤
        mean_red (enhance_red_channel [[((1 : ℚ)/2, (1 : ℚ)/2, (1 : ℚ)/2)]]) ∧
      (∀ q ∈ (enhance_red_channel [[((1 : ℚ)/2, (1 : ℚ)/2, (1 : ℚ)/2)]]).flatten,
        (0 ≤ q.1 ∧ q.1 ≤ 1) ∧ (0 ≤ q.2.1 ∧ q.2.1 ≤ 1) ∧ (0 ≤ q.2.2 ∧ q.2.2 ≤ 1)) ∧
      (enhance_red_channel [[((1 : ℚ)/2, (1 : ℚ)/2, (1 : ℚ)/2)]]).flatten.map
          (fun p => (p.1, p.2.1))
        = ([[((1 : ℚ)/2, (1 : ℚ)/2, (1 : ℚ)/2)]] :
            List (List (ℚ × ℚ × ℚ))).flatten.map (fun p => (p.1, p.2.1))) := by
  have hx : ∀ p ∈ ([[((1 : ℚ)/2, (1 : ℚ)/2, (1 : ℚ)/2)]] : List (List (ℚ × ℚ × ℚ))).flatten,
      (0 ≤ p.1 ∧ p.1 ≤ 1) ∧ (0 ≤ p.2.1 ∧ p.2.1 ≤ 1) ∧ (0 ≤ p.2.2 ∧ p.2.2 ≤ 1) := by
    intro p hp
    simp only [List.flatten_cons, List.flatten_nil, List.append_nil,
      List.mem_singleton] at hp
    subst hp
    norm_num
  exact ⟨hx, red_boost_monotone [[((1 : ℚ)/2, (1 : ℚ)/2, (1 : ℚ)/2)]] hx⟩

end SIH
